import Mathlib

/-!
Shallow embedding of the badlam interpreter core.

Source files embedded here:
- `src/bl_parser/nodes.py` — the AST node classes (`Paren`, `Call`, `Var`,
  `Lambda`), each carrying a source position (`Meta`).
- `src/interpreter/bl_types/essentials.py` — the value algebra
  (`ExpressionResult`, `BLError`, `Value` and its variants), the object model
  (`Class`, `Instance`), the environment (`Env`, `Var`) and the built-in
  exception classes.
- `src/interpreter/main.py` — the trampolined evaluator (`ASTInterpreter`),
  embedded as an explicit small-step machine whose states are exactly the
  values the Python variable `tramp` ranges over in `ASTInterpreter.visit`.

Modelling conventions, stated once:
- Python is dynamically typed; every "object" slot (dict values, call
  arguments, environment bindings) is modelled as `ExpressionResult`, the
  union of proper values and `BLError`, because the code does store errors in
  such slots (e.g. `ASTInterpreter.apply` binds an unchecked argument with
  `env.new_var(form_arg, arg)`).
- Instance member maps mutate in place in Python; operations that mutate a
  map here return the updated `Instance` alongside their result.
- A Python-level exception (`AttributeError` on `None`, `TypeError` on a bad
  arity, reading the nonexistent `interpreter.locals`) is a host fault; it is
  modelled by an explicit fault outcome (`TState.fault`, or `none` in an
  `Option` result), never conflated with a `BLError` result.
- The `interpreter` argument threaded through the Python methods carries no
  data these claims observe except its `calls` list, which is threaded
  explicitly where needed; the argument is otherwise dropped.
- Lark `Meta` objects are modelled by their source position (line, column),
  the only part the code observes.
-/

namespace Badlam

/-- Source position carried by every AST node (lark `Meta`, the fields the
code observes). -/
structure Meta where
  line : Nat
  column : Nat
  deriving DecidableEq, Repr

/-- The four AST node kinds of `src/bl_parser/nodes.py` (`_Expr` subclasses):
`Paren {meta, expr}`, `Call {meta, callee, arg}`, `Var {meta, name}`,
`Lambda {meta, form_arg, body}`. Identifiers (lark `Token`) are plain text. -/
inductive Expr where
  | paren (meta : Meta) (expr : Expr)
  | call (meta : Meta) (callee : Expr) (arg : Expr)
  | var (meta : Meta) (name : String)
  | lambda (meta : Meta) (formArg : String) (body : Expr)
  deriving DecidableEq, Repr

/-- `__str__` of the AST node classes in `src/bl_parser/nodes.py`:
`Paren` → "({expr})", `Call` → "{callee} {arg}", `Var` → name,
`Lambda` → "λ{form_arg}.{body}". -/
def strOfExpr : Expr → String
  | .paren _ e => "(" ++ strOfExpr e ++ ")"
  | .call _ c a => strOfExpr c ++ " " ++ strOfExpr a
  | .var _ n => n
  | .lambda _ fa b => "λ" ++ fa ++ "." ++ strOfExpr b

/-- Defunctionalized host callables wrapped by `PythonFunction`: the two
concrete host functions of `essentials.py`, `exc_init` and `exc_dump`. -/
inductive PyFnKind where
  | excInit
  | excDump
  deriving DecidableEq, Repr

/-- `Var {value}` of `essentials.py`, the immutable binding wrapper
(generic in the bound type so that it can be instantiated with
`ExpressionResult` below). -/
structure VarG (β : Type) where
  value : β

/-- `Env {vars, parent}` of `essentials.py`, generic in the bound type (the
`interpreter` field carries no observed data and is dropped). -/
inductive EnvG (β : Type) where
  | mk (vars : List (String × VarG β)) (parent : Option (EnvG β))

def EnvG.vars {β : Type} : EnvG β → List (String × VarG β)
  | .mk v _ => v

def EnvG.parent {β : Type} : EnvG β → Option (EnvG β)
  | .mk _ p => p

mutual

/-- `Value` variants of `essentials.py`: `PythonValue` (wraps an opaque host
object — only ever a `Meta | None` here), `Bool`, `Null`, `String`,
`PythonFunction {function, this}`, `BLFunction {form_arg, body, env, src,
name, this}`, `Class` and `Instance`.  `BLFunction.name` is annotated
`String` in Python but `BLFunction.bind` stores an `Instance` there, so the
slot is modelled as `ExpressionResult`. -/
inductive Value where
  | pythonValue (m : Option Meta)
  | bool (b : Bool)
  | null
  | string (s : String)
  | pythonFunction (fn : PyFnKind) (this : Option Instance)
  | blFunction (formArg : String) (body : Expr)
      (env : Option (EnvG ExpressionResult))
      (src : String) (name : ExpressionResult) (this : Option Instance)
  | classV (c : Class)
  | instanceV (i : Instance)

/-- `Class {name, super, vars}` of `essentials.py` (the `name` slot holds a
`String` value object; modelled by its text). The superclass chain is strictly
linear. -/
inductive Class where
  | mk (name : String) (sup : Option Class)
      (vars : List (String × ExpressionResult))

/-- `Instance {class_, vars}` of `essentials.py`. -/
inductive Instance where
  | mk (cls : Class) (vars : List (String × ExpressionResult))

/-- `BLError {value, meta}` of `essentials.py` (the error result type). -/
inductive BLError where
  | mk (value : Instance) (meta : Option Meta)

/-- `ExpressionResult` of `essentials.py`: a tagged union of proper values and
errors (its only concrete subclasses are `Value` and `BLError`). -/
inductive ExpressionResult where
  | val (v : Value)
  | err (e : BLError)

end

/-- The binding wrapper instantiated at the dynamic slot type. -/
abbrev Var : Type := VarG ExpressionResult

/-- The environment instantiated at the dynamic slot type. -/
abbrev Env : Type := EnvG ExpressionResult

def Var.value (v : Var) : ExpressionResult := VarG.value v

def Class.name : Class → String
  | .mk n _ _ => n

def Class.sup : Class → Option Class
  | .mk _ s _ => s

def Class.vars : Class → List (String × ExpressionResult)
  | .mk _ _ v => v

def Instance.cls : Instance → Class
  | .mk c _ => c

def Instance.vars : Instance → List (String × ExpressionResult)
  | .mk _ v => v

def BLError.value : BLError → Instance
  | .mk v _ => v

def BLError.meta : BLError → Option Meta
  | .mk _ m => m

/-- Python `dict` read (`d[k]` / `k in d`): lookup by key equality. -/
def lookupD {α : Type} : List (String × α) → String → Option α
  | [], _ => none
  | (k, v) :: rest, key => if k = key then some v else lookupD rest key

/-- Python `dict` write (`d[k] = v`, and the `d | {k: v}` union with a
singleton): replaces the value of an existing key in place, otherwise appends
the new key at the end, preserving insertion order. -/
def dictSet {α : Type} : List (String × α) → String → α → List (String × α)
  | [], k, v => [(k, v)]
  | (k', v') :: rest, k, v =>
      if k' = k then (k, v) :: rest else (k', v') :: dictSet rest k v

/-! ### Built-in classes (`essentials.py`, section OOP)

`ObjectClass = Class(String("Object"))`, the `exc_methods` dict, the
`ExceptionClass` and the four pre-declared exception subclasses, each a direct
child of `Exception` with an empty member map of its own. -/

def ObjectClass : Class := .mk "Object" none []

def exc_methods : List (String × ExpressionResult) :=
  [("__init__", .val (.pythonFunction .excInit none)),
   ("__dump__", .val (.pythonFunction .excDump none))]

def ExceptionClass : Class := .mk "Exception" (some ObjectClass) exc_methods

def NotImplementedException : Class :=
  .mk "NotImplementedException" (some ExceptionClass) []

def AttrNotFoundException : Class :=
  .mk "AttrNotFoundException" (some ExceptionClass) []

def VarNotFoundException : Class :=
  .mk "VarNotFoundException" (some ExceptionClass) []

def IncorrectTypeException : Class :=
  .mk "IncorrectTypeException" (some ExceptionClass) []

/-- `BLError.__init__(value, meta)`: stores the wrapped instance, mutates it
with `value.vars["meta"] = PythonValue(meta)`, and stores `meta`. -/
def BLError.make (value : Instance) (m : Option Meta) : BLError :=
  .mk (.mk value.cls (dictSet value.vars "meta" (.val (.pythonValue m)))) m

/-- The ubiquitous pattern `BLError(cast_to_instance(Cls.new([], interpreter,
meta)), meta)` for a built-in exception class `Cls`: none of the four
pre-declared exception classes has `"__init__"` in its *own* `vars`, so
`Class.new` (below) returns the bare `Instance(Cls, {})`, which `BLError`
then wraps (`errorFromClass_eq_new` proves the agreement). -/
def errorFromClass (cls : Class) (m : Option Meta) : BLError :=
  BLError.make (.mk cls []) m

/-! ### `BLError` capability overrides (`essentials.py` lines 117-153)

Every capability on a `BLError` returns `self`, ignoring all arguments.
(`BLError.call_cps` thereby returns a bare `BLError` where the trampoline
expects a `("running" | "done", ...)` tuple; what the trampoline does with
that is modelled at `applyStep` below.) -/

def BLError.get_attr (e : BLError) (attr : String) (m : Option Meta) :
    BLError := e

def BLError.set_attr (e : BLError) (attr : String) (v : ExpressionResult)
    (m : Option Meta) : BLError := e

def BLError.call (e : BLError) (args : List ExpressionResult)
    (m : Option Meta) : BLError := e

def BLError.call_cps (e : BLError) (args : List ExpressionResult)
    (m : Option Meta) : BLError := e

def BLError.new (e : BLError) (args : List ExpressionResult)
    (m : Option Meta) : BLError := e

def BLError.dump (e : BLError) (m : Option Meta) : BLError := e

/-! ### Host functions and the `call` capability -/

/-- `exc_init(meta, interpreter, this, /, msg, *_)` and
`exc_dump(meta, interpreter, this, /, *_)` from `essentials.py`, dispatched
through `PythonFunction.call`, which invokes
`self.function(meta, interpreter, self.this, *args)`.  Calling `exc_init`
with no arguments fails to bind the required positional `msg` — a host
`TypeError`, modelled as `none`.  The second component is the (possibly
mutated) receiver. -/
def callPyFn : PyFnKind → Option Meta → Option Instance →
    List ExpressionResult → Option (ExpressionResult × Option Instance)
  | .excInit, m, this, args =>
      match args with
      | [] => none
      | msg :: _ =>
          match this with
          | some t =>
              some (.val .null, some (.mk t.cls (dictSet t.vars "msg" msg)))
          | none =>
              some (.err (errorFromClass NotImplementedException m), none)
  | .excDump, m, this, _ =>
      match this with
      | some t => some (.val (.string t.cls.name), some t)
      | none => some (.err (errorFromClass NotImplementedException m), none)

/-- The `call` capability of a proper `Value` (`essentials.py`):
`PythonFunction.call` runs the wrapped host function;
`BLFunction.call` delegates to `call_cps`, whose first statements append a
traceback frame and then read `interpreter.locals` — an attribute
`ASTInterpreter.__init__` never creates — raising a host `AttributeError`
(`none`; the frame append is modelled at `BLFunction.call_cps` below);
every other value kind inherits `ExpressionResult.call`, which returns a
fresh `NotImplementedException` error.  The second component is the updated
receiver, for callables bound to one. -/
def valueCall : Value → List ExpressionResult → Option Meta →
    Option (ExpressionResult × Option Instance)
  | .pythonFunction fn this, args, m => callPyFn fn m this args
  | .blFunction _ _ _ _ _ _, _, _ => none
  | _, _, m =>
      some (.err (errorFromClass NotImplementedException m), none)

/-- `constr.call(args, interpreter, meta)` on an arbitrary
`ExpressionResult`: `BLError.call` returns the error itself (no receiver
mutation); a proper value dispatches through `valueCall`. -/
def resultCall (r : ExpressionResult) (args : List ExpressionResult)
    (m : Option Meta) : Option (ExpressionResult × Option Instance) :=
  match r with
  | .err e => some (.err (BLError.call e args m), none)
  | .val v => valueCall v args m

/-! ### Object model (`essentials.py`, section OOP) -/

/-- Modelled from the spec: the protocol `SupportsBLCall` is declared in
`abc_protocols.py`, which is absent from `src/`; per the spec (§4.2, §4.4) it
is the shape matched by callable function values that can be rebound to a
receiver — here `BLFunction` and `PythonFunction`. -/
def isSupportsBLCall : Value → Bool
  | .pythonFunction _ _ => true
  | .blFunction _ _ _ _ _ _ => true
  | _ => false

/-- `res.bind(self)` for a callable member.
`PythonFunction.bind(this)` (lines 251-253) rebuilds the wrapper with the
receiver in the `this` slot.  `BLFunction.bind(this)` (lines 325-329) passes
`this` as the *fifth positional* constructor argument of `BLFunction`, which
is the `name` slot — so the returned function's `name` holds the instance
and its `this` stays `None`. -/
def bindCallable : Value → Instance → Value
  | .pythonFunction fn _, this => .pythonFunction fn (some this)
  | .blFunction fa bd env src _ _, this =>
      .blFunction fa bd env src (.val (.instanceV this)) none
  | v, _ => v

/-- `Class.get_attr` (lines 350-361): try the class's own member map, then
delegate up the linear superclass chain, and at the root return a fresh
`AttrNotFoundException` error. -/
def Class.get_attr : Class → String → Option Meta → ExpressionResult
  | .mk _ sup vars, attr, m =>
      match lookupD vars attr with
      | some r => r
      | none =>
          match sup with
          | some s => Class.get_attr s attr m
          | none => .err (errorFromClass AttrNotFoundException m)

/-- `Instance.get_attr` (lines 444-455): try the instance's own member map;
on a miss delegate to the class chain, and rebind a `SupportsBLCall` result
to the instance via `bind` before returning it. -/
def Instance.get_attr : Instance → String → Option Meta → ExpressionResult
  | i, attr, m =>
      match lookupD i.vars attr with
      | some r => r
      | none =>
          match Class.get_attr i.cls attr m with
          | .val v =>
              if isSupportsBLCall v then .val (bindCallable v i) else .val v
          | .err e => .err e

/-- `Instance.set_attr` (lines 457-468): a `BLError` value is returned
unchanged without touching the member map; a proper value is stored under
the attribute name and returned.  The second component is the (possibly
mutated) instance. -/
def Instance.set_attr (i : Instance) (attr : String)
    (value : ExpressionResult) (m : Option Meta) :
    ExpressionResult × Instance :=
  match value with
  | .err e => (.err e, i)
  | .val v => (.val v, .mk i.cls (dictSet i.vars attr (.val v)))

/-- `Class.new` (lines 363-374): allocate `Instance(self, {})`; only when
`"__init__"` is in the class's *own* `vars` is the constructor looked up on
the new instance (hence bound) and invoked with `args`; a `BLError` result
of that invocation is returned in place of the instance.  A host fault inside
the invocation (e.g. `BLFunction.call`'s `interpreter.locals`) propagates
as `none`. -/
def Class.new (c : Class) (args : List ExpressionResult) (m : Option Meta) :
    Option ExpressionResult :=
  let inst : Instance := .mk c []
  match lookupD c.vars "__init__" with
  | some _ =>
      match resultCall (Instance.get_attr inst "__init__" m) args m with
      | none => none
      | some (.err e, _) => some (.err e)
      | some (.val _, thisOut) =>
          some (.val (.instanceV (thisOut.getD inst)))
  | none => some (.val (.instanceV inst))

/-! ### Environment (`essentials.py`, section Environment) -/

/-- `Env.new_var(name, value)` (lines 523-525): returns
`Env(self.interpreter, self.vars | {name: Var(value)}, self)` — a child
environment whose own map is a copy of the receiver's with the one binding
added and whose parent is the receiver; the receiver is never mutated. -/
def Env.new_var (e : Env) (name : String) (value : ExpressionResult) : Env :=
  .mk (dictSet e.vars name (.mk value)) (some e)

/-- `Env.resolve_var(name, meta)` (lines 536-544): first match in the
chain, innermost frame first; an exhausted chain yields a fresh
`VarNotFoundException` error carrying `meta`. -/
def Env.resolve_var : Env → String → Option Meta → Var ⊕ BLError
  | .mk vars parent, name, m =>
      match lookupD vars name with
      | some v => .inl v
      | none =>
          match parent with
          | some p => Env.resolve_var p name m
          | none => .inr (errorFromClass VarNotFoundException m)

/-- `Env.get_var(name, meta)` (lines 527-534): unwrap the binding, or
forward the error. -/
def Env.get_var (e : Env) (name : String) (m : Option Meta) :
    ExpressionResult :=
  match Env.resolve_var e name m with
  | .inl vb => vb.value
  | .inr er => .err er

/-! ### The trampolined evaluator (`src/interpreter/main.py`)

`ASTInterpreter.visit` seeds `tramp = self._visit(node, None, k0)` with
`k0 = lambda x: ("done", x)` and then loops, matching `tramp` against
`("running", f, args)` (in which case `tramp = f(*args)`) and
`("done", res)` (in which case it returns `res`).

The machine below has exactly one state per value the variable `tramp`
takes, one `step` per loop iteration:

- `TState.visit node env k` is the tuple `("running", _visit, (node, env,
  k))`; its successor is the tuple `_visit(node, env, k)` returns
  (`visitStep`).  The initial environment really is `None`.
- `TState.ret k res` is the tuple `("running", k, (res,))` for a
  continuation `k`; continuations are defunctionalized by `Cont`:
  `Cont.done` is `k0`; `Cont.evalArg arg env meta next` is the
  `lambda callee: self._visit(arg, env, ...)` closure built by the `Call`
  case of `_visit`; `Cont.applyK callee meta next` is the
  `lambda arg: self.apply(callee, arg, meta, then)` closure.  Invoking a
  continuation runs the Python code in its body (a `_visit` or an `apply`
  call) and the returned tuple is the next state.
- `TState.final res` is `("done", res)`: the loop returns `res`.
- `TState.stuck e` is `tramp` bound to a bare `BLError` (what
  `BLError.call_cps` returns through `ASTInterpreter.apply`'s fallback):
  neither `case` of the loop's `match` fires, nothing rebinds `tramp`, and
  the `while True` loop spins forever — the state is its own successor.
- `TState.fault` is a host exception raised while computing the next
  tuple (`AttributeError` on `None.get_var` / `None.new_var`): the loop is
  torn down; the state is terminal (and kept as its own successor so that
  `stepN` is total). -/

inductive Cont where
  | done
  | evalArg (arg : Expr) (env : Option Env) (meta : Meta) (next : Cont)
  | applyK (callee : ExpressionResult) (meta : Meta) (next : Cont)

inductive TState where
  | visit (node : Expr) (env : Option Env) (k : Cont)
  | ret (k : Cont) (res : ExpressionResult)
  | final (res : ExpressionResult)
  | stuck (e : BLError)
  | fault

/-- `ASTInterpreter.apply(callee, arg, meta, then)` (lines 88-117): a
`BLFunction` callee (its `this` and `name` are not inspected) has its body
scheduled in `env.new_var(form_arg, arg)` — where `env` is the *captured*
environment, so a closure built at top level carries `None` and the
`new_var` attribute access on it raises (`fault`).  Any other callee is
delegated to its `call_cps`: `BLError.call_cps` returns the bare error
(`stuck`); every other value inherits `ExpressionResult.call_cps`, which
returns `("running", then, (self.call(args, interpreter, meta),))`, a host
fault inside `call` propagating. -/
def applyStep (callee : ExpressionResult) (arg : ExpressionResult)
    (m : Meta) (k : Cont) : TState :=
  match callee with
  | .val (.blFunction formArg body env _ _ _) =>
      match env with
      | none => .fault
      | some e => .visit body (some (Env.new_var e formArg arg)) k
  | .err e => .stuck e
  | .val v =>
      match valueCall v [arg] (some m) with
      | none => .fault
      | some (r, _) => .ret k r

/-- `ASTInterpreter._visit(node, env, then)` (lines 48-86), the tuple it
returns for each node kind:
`Paren` defers to the subexpression; `Call` defers to the callee with the
argument-then-apply continuation attached; `Var` computes
`env.get_var(name, meta)` *now* (raising on an absent environment) and hands
it to the continuation; `Lambda` hands the continuation a fresh
`BLFunction(form_arg, body, env, str(node))` capturing the environment
active at this evaluation (`name` defaulting to `String("λ")`, `this` to
`None`). -/
def visitStep : Expr → Option Env → Cont → TState
  | .paren _ e, env, k => .visit e env k
  | .call m c a, env, k => .visit c env (.evalArg a env m k)
  | .var m name, env, k =>
      match env with
      | none => .fault
      | some e => .ret k (Env.get_var e name (some m))
  | .lambda m fa body, env, k =>
      .ret k (.val (.blFunction fa body env
        (strOfExpr (.lambda m fa body)) (.val (.string "λ")) none))

/-- One iteration of the `while True` loop of `ASTInterpreter.visit`. -/
def step : TState → TState
  | .visit node env k => visitStep node env k
  | .ret k res =>
      match k with
      | .done => .final res
      | .evalArg a env m next => visitStep a env (.applyK res m next)
      | .applyK callee m next => applyStep callee res m next
  | .final r => .final r
  | .stuck e => .stuck e
  | .fault => .fault

def stepN : Nat → TState → TState
  | 0, s => s
  | n + 1, s => stepN n (step s)

/-- The state `ASTInterpreter.visit(node)` starts from: the initial
environment is `None` and the initial continuation is `k0`. -/
def visitInit (node : Expr) : TState := .visit node none .done

/-- A state at which the `while True` loop of `visit` has stopped: either
`("done", res)` was reached (the loop returns `res`) or a host exception
tore the loop down. -/
def isTerminal : TState → Bool
  | .final _ => true
  | .fault => true
  | _ => false

/-! ### The call stack (`ASTInterpreter.calls`) and `BLFunction.call_cps` -/

/-- `Call` of `essentials.py` (lines 230-234): a traceback frame pairing the
callee with the call-site position. -/
structure CallFrame where
  function : Value
  meta : Option Meta

/-- One loop iteration of `visit` together with the interpreter's `calls`
list: no code reachable from the loop body touches `calls` —
`_visit` never mentions it, `apply`'s `BLFunction` branch schedules the body
directly, and the `call_cps` fallback reaches only `BLError.call_cps` (which
returns `self`) or the inherited `ExpressionResult.call_cps`, neither of
which appends a frame (`interpreter.calls.append` occurs solely in
`BLFunction.call_cps`, which `apply` never invokes because its `BLFunction`
`case` matches first). -/
def stepI (p : TState × List CallFrame) : TState × List CallFrame :=
  (step p.1, p.2)

def stepIN : Nat → TState × List CallFrame → TState × List CallFrame
  | 0, p => p
  | n + 1, p => stepIN n (stepI p)

/-- `BLFunction.call_cps(args, interpreter, meta, then)` (`essentials.py`
lines 287-323) invoked on the function value `f`: the first statement
appends `Call(self, meta)` to `interpreter.calls`; the next statement reads
`interpreter.locals`, an attribute `ASTInterpreter.__init__` never creates,
raising a host `AttributeError` (`none`) before the parameter is bound or
the body is evaluated — so the frame just pushed is never popped. -/
def BLFunction.call_cps (f : Value) (args : List ExpressionResult)
    (calls : List CallFrame) (m : Option Meta) :
    Option ExpressionResult × List CallFrame :=
  (none, calls ++ [⟨f, m⟩])

/-- A name is bound somewhere in the environment chain. -/
def boundInChain : Env → String → Bool
  | .mk vars parent, name =>
      (lookupD vars name).isSome ||
        (match parent with
         | some p => boundInChain p name
         | none => false)

/-! ### General lemmas about the machine -/

theorem stepN_add (a b : Nat) (s : TState) :
    stepN (a + b) s = stepN a (stepN b s) := by
  induction b generalizing s with
  | zero => rfl
  | succ b ih => exact ih (step s)

theorem stepN_fault (n : Nat) : stepN n TState.fault = TState.fault := by
  induction n with
  | zero => rfl
  | succ n ih => exact ih

theorem stepN_stuck (n : Nat) (e : BLError) :
    stepN n (TState.stuck e) = TState.stuck e := by
  induction n with
  | zero => rfl
  | succ n ih => exact ih

/-- `t` is reachable from `s` in finitely many loop iterations. -/
def Reach (s t : TState) : Prop := ∃ n, stepN n s = t

theorem Reach.refl (s : TState) : Reach s s := ⟨0, rfl⟩

theorem Reach.single (s : TState) : Reach s (step s) := ⟨1, rfl⟩

theorem Reach.trans {s t u : TState} (h1 : Reach s t) (h2 : Reach t u) :
    Reach s u := by
  obtain ⟨n, hn⟩ := h1
  obtain ⟨m, hm⟩ := h2
  exact ⟨m + n, by rw [stepN_add, hn, hm]⟩

/-- The only values evaluation can produce before the first application has
succeeded: `BLFunction`s whose captured environment is `None`. -/
def isLamNone : ExpressionResult → Bool
  | .val (.blFunction _ _ none _ _ _) => true
  | _ => false

theorem applyStep_of_isLamNone (r a : ExpressionResult) (m : Meta)
    (k : Cont) (h : isLamNone r = true) : applyStep r a m k = TState.fault := by
  match r, h with
  | .val (.blFunction _ _ none _ _ _), _ => rfl

/-- Starting from `_visit(e, None, k)` — the environment `visit` seeds — the
machine reaches either a host fault or the delivery to `k` of a closure that
captured `None`: the loop cannot run forever from an absent environment,
because a `Var` on the evaluated spine faults at once and the first
application's callee necessarily captured `None`, faulting in
`env.new_var`. -/
theorem visitNone_halts (e : Expr) : ∀ k : Cont,
    (∃ r, Reach (visitStep e none k) (.ret k r) ∧ isLamNone r = true) ∨
    Reach (visitStep e none k) TState.fault := by
  induction e with
  | paren m e ih =>
      intro k
      rcases ih k with ⟨r, hR, hr⟩ | hR
      · exact .inl ⟨r, Reach.trans (Reach.single _) hR, hr⟩
      · exact .inr (Reach.trans (Reach.single _) hR)
  | var m name =>
      intro k
      exact .inr (Reach.refl _)
  | lambda m fa body =>
      intro k
      exact .inl ⟨_, Reach.refl _, rfl⟩
  | call m c a ihc iha =>
      intro k
      rcases ihc (.evalArg a none m k) with ⟨rc, hRc, hrc⟩ | hRc
      · have h1 : Reach (visitStep (.call m c a) none k)
            (.ret (.evalArg a none m k) rc) :=
          Reach.trans (Reach.single _) hRc
        have h2 : Reach (TState.ret (.evalArg a none m k) rc)
            (visitStep a none (.applyK rc m k)) := Reach.single _
        rcases iha (.applyK rc m k) with ⟨ra, hRa, _⟩ | hRa
        · have h3 : Reach (TState.ret (.applyK rc m k) ra)
              (applyStep rc ra m k) := Reach.single _
          rw [applyStep_of_isLamNone rc ra m k hrc] at h3
          exact .inr (((h1.trans h2).trans hRa).trans h3)
        · exact .inr ((h1.trans h2).trans hRa)
      · exact .inr (Reach.trans (Reach.single _) hRc)

/-- Free variables of an AST node (a node is closed iff this is empty). -/
def fvList : Expr → List String
  | .paren _ e => fvList e
  | .call _ c a => fvList c ++ fvList a
  | .var _ n => [n]
  | .lambda _ fa b => (fvList b).filter (fun y => y != fa)

/-- An exhausted chain: `Env.resolve_var` walks parent links and at the root
builds the `VarNotFoundException` error carrying the requested position. -/
theorem resolve_var_unbound :
    ∀ (e : Env) (name : String) (m : Option Meta),
      boundInChain e name = false →
      Env.resolve_var e name m = .inr (errorFromClass VarNotFoundException m)
  | .mk vars parent, name, m, h => by
      rw [boundInChain.eq_def] at h
      simp only [Bool.or_eq_false_iff] at h
      obtain ⟨h1, h2⟩ := h
      have hl : lookupD vars name = none := by
        cases hx : lookupD vars name with
        | none => rfl
        | some v => rw [hx] at h1; simp at h1
      cases parent with
      | none =>
          simp only [Env.resolve_var, hl]
      | some p =>
          have h2p : boundInChain p name = false := h2
          simp only [Env.resolve_var, hl]
          exact resolve_var_unbound p name m h2p

/-! ### Concrete inputs used by the claims -/

def M1 : Meta := ⟨1, 1⟩
def M2 : Meta := ⟨1, 2⟩
def M3 : Meta := ⟨1, 3⟩
def M4 : Meta := ⟨1, 4⟩
def M5 : Meta := ⟨1, 5⟩

/-- `(λx.x) (λy.y)`, a closed top-level application of a function literal. -/
def prog1 : Expr :=
  .call M1 (.lambda M2 "x" (.var M3 "x")) (.lambda M4 "y" (.var M5 "y"))

/-- An empty but present environment frame. -/
def env0 : Env := .mk [] none

/-- `(λx.λy.y) u` with `u` unbound: the argument evaluates to an error. -/
def prog2 : Expr :=
  .call M1 (.lambda M2 "x" (.lambda M3 "y" (.var M4 "y"))) (.var M5 "u")

/-- The `VarNotFoundException` error produced by evaluating `Var u` (at
position `M5`) in `env0`. -/
def verr : BLError := errorFromClass VarNotFoundException (some M5)

/-- The closure `prog2`'s callee evaluates to in `env0`. -/
def fC2 : Value :=
  .blFunction "x" (.lambda M3 "y" (.var M4 "y")) (some env0) "λx.λy.y"
    (.val (.string "λ")) none

/-- The frame the application of `fC2` creates: the parameter `x` is bound
to the *error* the argument produced. -/
def envC2 : Env := .mk [("x", .mk (.err verr))] (some env0)

/-- The closure `prog2` evaluates to: a proper value, not `verr`. -/
def gC2 : Value :=
  .blFunction "y" (.var M4 "y") (some envC2) "λy.y" (.val (.string "λ")) none

/-- `(λx.u) (λz.z)` with `u` unbound: the applied function's body yields an
error that reaches the top level. -/
def prog4 : Expr :=
  .call M1 (.lambda M2 "x" (.var M3 "u")) (.lambda M4 "z" (.var M5 "z"))

/-- The argument closure of `prog4`. -/
def g4 : Value :=
  .blFunction "z" (.var M5 "z") (some env0) "λz.z" (.val (.string "λ")) none

/-- The frame the application in `prog4` creates. -/
def envB4 : Env := .mk [("x", .mk (.val g4))] (some env0)

/-- The `VarNotFoundException` error `prog4`'s body produces (at `M3`). -/
def verr4 : BLError := errorFromClass VarNotFoundException (some M3)

/-- A user-defined method (a `BLFunction`) sitting on a grandparent class. -/
def methodG : Value :=
  .blFunction "a" (.var M1 "a") none "λa.a" (.val (.string "λ")) none

def Gcls : Class := .mk "G" none [("m", .val methodG)]

def Pcls : Class := .mk "P" (some Gcls) []

def Ccls : Class := .mk "C" (some Pcls) []

/-- An instance of `Ccls`, whose grandparent `Gcls` defines method `m`. -/
def iC : Instance := .mk Ccls []

/-- A class with no own `__init__` whose ancestor (`ExceptionClass`)
defines one. -/
def ChildClass : Class := .mk "Child" (some ExceptionClass) []

/-- A class whose own `__init__` member is not callable, so invoking it
yields a `NotImplementedException` error. -/
def Wclass : Class := .mk "W" none [("__init__", .val .null)]

/-- An environment frame binding `x`. -/
def envA : Env := .mk [("x", .mk (.val .null))] none

/-- A frame not binding `x`, whose parent `envA` does. -/
def envAB : Env := .mk [] (some envA)

/-- A closed AST with no application: `λx.x`. -/
def progW : Expr := .lambda M1 "x" (.var M2 "x")

/-! ### The claims -/

/-- C1: the claim says that for every finite closed AST, `evaluate` returns a
Value or an Error with no host-level fault, *including for a top-level
application of a function literal*.  The code refutes it at exactly that
input: `visit` seeds `_visit(node, None, ...)`, so the closure built for
`λx.x` captures `env = None`, and `apply` then evaluates
`env.new_var(form_arg, arg)` on `None` — a host `AttributeError`.  Four loop
iterations into evaluating `(λx.x) (λy.y)` the machine faults, and stays
faulted forever: no `ExpressionResult` is ever returned. -/
theorem c1_top_level_application_faults :
    stepN 4 (visitInit prog1) = TState.fault ∧
    ∀ n : Nat, stepN (4 + n) (visitInit prog1) = TState.fault := by
  have h4 : stepN 4 (visitInit prog1) = TState.fault := rfl
  refine ⟨h4, fun n => ?_⟩
  rw [Nat.add_comm, stepN_add, h4]
  exact stepN_fault n

/-- C2 counterexample: evaluating `(λx.λy.y) u` (with `u` unbound) in a
proper empty environment, the argument evaluates to a `VarNotFoundException`
error (the state after three iterations holds it, about to be applied), yet
the final result of the `Call` is a proper closure value — the argument's
error is *not* propagated as the result, contrary to the claim. -/
theorem c2_short_circuit_counterexample :
    stepN 3 (TState.visit prog2 (some env0) .done) =
      .ret (.applyK (.val fC2) M1 .done) (.err verr) ∧
    stepN 6 (TState.visit prog2 (some env0) .done) = .final (.val gC2) :=
  ⟨rfl, rfl⟩

/-- C2 amended: for `Call(callee, arg)` the callee is evaluated fully first;
then the argument is evaluated *unconditionally* — even when the callee
yielded an Error — and only then is apply invoked on the two results.  An
Error yielded by the argument is bound to a `UserFunction` callee's
parameter instead of propagating, and an Error callee makes the `call_cps`
fallback hand the loop a bare `BLError`, which matches neither loop case, so
the loop never delivers a result. -/
theorem c2_call_order_amended :
    (∀ (m : Meta) (c a : Expr) (env : Option Env) (k : Cont),
      step (.visit (.call m c a) env k) =
        .visit c env (.evalArg a env m k)) ∧
    (∀ (m : Meta) (a : Expr) (env : Option Env) (k : Cont) (e : BLError),
      step (.ret (.evalArg a env m k) (.err e)) =
        visitStep a env (.applyK (.err e) m k)) ∧
    (∀ (m : Meta) (k : Cont) (fa : String) (bd : Expr) (e0 : Env)
        (src : String) (nm : ExpressionResult) (th : Option Instance)
        (er : BLError),
      applyStep (.val (.blFunction fa bd (some e0) src nm th)) (.err er)
          m k =
        .visit bd (some (Env.new_var e0 fa (.err er))) k) ∧
    (∀ (m : Meta) (k : Cont) (e : BLError) (r : ExpressionResult) (n : Nat),
      stepN (n + 1) (.ret (.applyK (.err e) m k) r) = .stuck e) :=
  ⟨fun _ _ _ _ _ => rfl, fun _ _ _ _ _ => rfl,
   fun _ _ _ _ _ _ _ _ _ => rfl, fun m k e r n => stepN_stuck n e⟩

/-- C3: `evaluate(node)` terminates for every finite AST with no free
variables: the `while True` loop of `visit` always leaves — with a Value for
application-free input, and by the host fault of C1 at the first
application (reached after finitely many steps) otherwise. -/
theorem c3_evaluate_terminates (e : Expr) (h : fvList e = []) :
    ∃ n, isTerminal (stepN n (visitInit e)) = true := by
  have h0 : Reach (visitInit e) (visitStep e none .done) := Reach.single _
  rcases visitNone_halts e .done with ⟨r, hR, _⟩ | hR
  · obtain ⟨n, hn⟩ := Reach.trans h0 hR
    refine ⟨1 + n, ?_⟩
    rw [stepN_add, hn]
    rfl
  · obtain ⟨n, hn⟩ := Reach.trans h0 hR
    exact ⟨n, by rw [hn]; rfl⟩

theorem c3_evaluate_terminates_witness :
    fvList progW = [] ∧
    ∃ n, isTerminal (stepN n (visitInit progW)) = true :=
  ⟨rfl, c3_evaluate_terminates progW rfl⟩

/-- C4: every capability invoked on a `BLError` — get-attribute,
set-attribute, call (plain and CPS variant), instantiate (`new`) and dump —
returns that same error unchanged, whatever the arguments. -/
theorem c4_error_capabilities_return_self :
    ∀ (e : BLError) (attr : String) (v : ExpressionResult)
      (args : List ExpressionResult) (m : Option Meta),
      BLError.get_attr e attr m = e ∧ BLError.set_attr e attr v m = e ∧
      BLError.call e args m = e ∧ BLError.call_cps e args m = e ∧
      BLError.new e args m = e ∧ BLError.dump e m = e :=
  fun _ _ _ _ _ => ⟨rfl, rfl, rfl, rfl, rfl, rfl⟩

/-- C5 counterexample: evaluating `(λx.u) (λz.z)` (with `u` unbound) from an
empty call stack, the applied function's body is entered with the stack
still empty — no frame `(callee, call-site)` was pushed before the body
evaluation — and the evaluation ends in a top-level Error with the stack
still empty rather than holding the one active call. -/
theorem c5_stack_counterexample :
    stepIN 4 (.visit prog4 (some env0) .done, []) =
      (.visit (.var M3 "u") (some envB4) .done, []) ∧
    stepIN 6 (.visit prog4 (some env0) .done, []) =
      (.final (.err verr4), []) :=
  ⟨rfl, rfl⟩

/-- C5 amended: the trampoline loop never touches `interpreter.calls` — the
direct application path of `ASTInterpreter.apply` evaluates a
`UserFunction`'s body without pushing a frame, so a top-level evaluation
yielding a Value leaves the stack exactly as it was; a frame is pushed only
by `BLFunction.call_cps` (the bound-method path), which appends
`(callee, call-site)` and then immediately raises a host `AttributeError`
reading the nonexistent `interpreter.locals`, before any body evaluation —
leaving the frame in place. -/
theorem c5_stack_amended :
    (∀ (s : TState) (cs : List CallFrame), (stepI (s, cs)).2 = cs) ∧
    stepIN 6 (.visit prog2 (some env0) .done, []) =
      (.final (.val gC2), []) ∧
    (∀ (f : Value) (args : List ExpressionResult) (cs : List CallFrame)
      (m : Option Meta),
      BLFunction.call_cps f args cs m = (none, cs ++ [⟨f, m⟩])) :=
  ⟨fun _ _ => rfl, rfl, fun _ _ _ _ => rfl⟩

/-- C6: attribute lookup on an instance of `Ccls` misses the instance's own
map and its class's, finds the method `m` on the grandparent class `Gcls`,
and — because `BLFunction.bind` passes the receiver as the fifth positional
constructor argument — returns it with the instance stored in the *name*
slot and `this = None`: the method is NOT rebound to the originating
instance, contradicting the claim (and `bind`'s own docstring).  A miss
through the whole chain does yield `AttrNotFoundException`. -/
theorem c6_bind_stores_receiver_in_name_slot :
    Instance.get_attr iC "m" (some M2) =
      .val (.blFunction "a" (.var M1 "a") none "λa.a"
        (.val (.instanceV iC)) none) ∧
    Instance.get_attr iC "absent" (some M2) =
      .err (errorFromClass AttrNotFoundException (some M2)) :=
  ⟨rfl, rfl⟩

/-- C7 counterexample: `ChildClass` has no own `__init__` but its ancestor
`ExceptionClass` does; `new(ChildClass, ["hi"])` nevertheless returns an
instance with an empty member map — the inherited `__init__` is never
invoked (invoking it would have stored `msg = "hi"`, as the last conjunct
shows). -/
theorem c7_inherited_init_counterexample :
    lookupD ChildClass.vars "__init__" = none ∧
    (lookupD ExceptionClass.vars "__init__").isSome = true ∧
    Class.new ChildClass [.val (.string "hi")] (some M1) =
      some (.val (.instanceV (.mk ChildClass []))) ∧
    callPyFn .excInit (some M1) (some (.mk ChildClass []))
      [.val (.string "hi")] =
      some (.val .null, some (.mk ChildClass [("msg", .val (.string "hi"))])) :=
  ⟨rfl, rfl, rfl, rfl⟩

/-- C7 amended: `new(Class, args)` allocates an empty instance; only when
the class *itself* defines `__init__` in its own member map is the
constructor invoked (bound to the new instance, with `args`) — a class
whose own map lacks `__init__`, even if an ancestor defines one, accepts any
arguments and leaves the instance with no private members.  The second
conjunct shows the own-`__init__` case on `ExceptionClass`: the constructor
runs with the new instance as receiver and stores its argument. -/
theorem c7_own_init_amended :
    (∀ (c : Class) (args : List ExpressionResult) (m : Option Meta),
      lookupD c.vars "__init__" = none →
      Class.new c args m = some (.val (.instanceV (.mk c [])))) ∧
    (∀ (m : Option Meta) (msg : ExpressionResult)
      (rest : List ExpressionResult),
      Class.new ExceptionClass (msg :: rest) m =
        some (.val (.instanceV (.mk ExceptionClass [("msg", msg)])))) := by
  constructor
  · intro c args m h
    unfold Class.new
    rw [h]
  · intro m msg rest
    rfl

theorem c7_own_init_amended_witness :
    lookupD ChildClass.vars "__init__" = none ∧
    Class.new ChildClass [.val (.string "hi")] (some M1) =
      some (.val (.instanceV (.mk ChildClass []))) :=
  ⟨rfl, c7_own_init_amended.1 ChildClass [.val (.string "hi")] (some M1) rfl⟩

/-- C8: when a class has an own `__init__` member and the constructor
invocation performed during `new` evaluates to an Error, instantiation
returns that Error and no instance. -/
theorem c8_init_error_returned (c : Class) (args : List ExpressionResult)
    (m : Option Meta) (iv : ExpressionResult) (e : BLError)
    (ro : Option Instance)
    (h1 : lookupD c.vars "__init__" = some iv)
    (h2 : resultCall (Instance.get_attr (.mk c []) "__init__" m) args m =
      some (.err e, ro)) :
    Class.new c args m = some (.err e) := by
  unfold Class.new
  simp only [h1, h2]

theorem c8_init_error_returned_witness :
    lookupD Wclass.vars "__init__" = some (.val .null) ∧
    resultCall (Instance.get_attr (.mk Wclass []) "__init__" (some M1)) []
      (some M1) =
      some (.err (errorFromClass NotImplementedException (some M1)), none) ∧
    Class.new Wclass [] (some M1) =
      some (.err (errorFromClass NotImplementedException (some M1))) :=
  ⟨rfl, rfl, c8_init_error_returned Wclass [] (some M1) (.val .null)
    (errorFromClass NotImplementedException (some M1)) none rfl rfl⟩

/-- C9: variable resolution returns the innermost frame's binding when it
has one (whatever the parent chain holds), otherwise delegates to the
parent; and when the name is bound nowhere in the chain, evaluating the
`Var` node yields a `VarNotFoundException` error carrying that `Var` node's
source position. -/
theorem c9_var_resolution :
    (∀ (vars : List (String × Var)) (p : Option Env) (name : String)
      (m : Option Meta) (vb : Var), lookupD vars name = some vb →
      Env.resolve_var (.mk vars p) name m = .inl vb) ∧
    (∀ (vars : List (String × Var)) (p : Env) (name : String)
      (m : Option Meta), lookupD vars name = none →
      Env.resolve_var (.mk vars (some p)) name m =
        Env.resolve_var p name m) ∧
    (∀ (env : Env) (name : String) (mV : Meta) (k : Cont),
      boundInChain env name = false →
      step (.visit (.var mV name) (some env) k) =
        .ret k (.err (errorFromClass VarNotFoundException (some mV)))) := by
  refine ⟨?_, ?_, ?_⟩
  · intro vars p name m vb h
    cases p with
    | none => simp only [Env.resolve_var, h]
    | some q => simp only [Env.resolve_var, h]
  · intro vars p name m h
    simp only [Env.resolve_var, h]
  · intro env name mV k h
    show TState.ret k (Env.get_var env name (some mV)) = _
    unfold Env.get_var
    rw [resolve_var_unbound env name (some mV) h]

theorem c9_var_resolution_witness :
    (lookupD envA.vars "x" = some (VarG.mk (.val .null)) ∧
      Env.resolve_var envA "x" none = .inl (VarG.mk (.val .null))) ∧
    (lookupD envAB.vars "x" = none ∧
      Env.resolve_var envAB "x" none = Env.resolve_var envA "x" none) ∧
    (boundInChain envAB "q" = false ∧
      step (.visit (.var M1 "q") (some envAB) .done) =
        .ret .done (.err (errorFromClass VarNotFoundException (some M1)))) :=
  ⟨⟨rfl, c9_var_resolution.1 [("x", .mk (.val .null))] none "x" none
      (.mk (.val .null)) rfl⟩,
   ⟨rfl, c9_var_resolution.2.1 [] envA "x" none rfl⟩,
   ⟨rfl, c9_var_resolution.2.2 envAB "q" M1 .done rfl⟩⟩

/-- C10: `Instance.set_attr` with an Error value returns that Error and
leaves the member map untouched; with a proper value it stores the value
under the attribute name (the updated map resolves the name to it) and
returns that same value. -/
theorem c10_set_attr :
    (∀ (i : Instance) (attr : String) (e : BLError) (m : Option Meta),
      Instance.set_attr i attr (.err e) m = (.err e, i)) ∧
    (∀ (i : Instance) (attr : String) (v : Value) (m : Option Meta),
      Instance.set_attr i attr (.val v) m =
        (.val v, .mk i.cls (dictSet i.vars attr (.val v)))) ∧
    (∀ (l : List (String × ExpressionResult)) (attr : String)
      (v : ExpressionResult), lookupD (dictSet l attr v) attr = some v) := by
  refine ⟨fun _ _ _ _ => rfl, fun _ _ _ _ => rfl, ?_⟩
  intro l attr v
  induction l with
  | nil => simp [dictSet, lookupD]
  | cons hd tl ih =>
      obtain ⟨k, w⟩ := hd
      by_cases hk : k = attr
      · subst hk
        simp [dictSet, lookupD]
      · simp [dictSet, lookupD, hk, ih]

end Badlam
